import Mathlib

/-!
Shallow embedding of the token-combinator library
(`src/token_combinator/lib/src/lib.rs`).

Rust slices of wrapper tokens become `List W`; a parser (the `TokenParser`
trait / the `FnMut` closures over token slices) becomes a pure
function `List W → Except (TokenParseError T) (List W × O)`.  The `while`
loops inside `many0`, `many1`, `separated_list0` and `separated_list1` are
modelled with an explicit fuel parameter: `none` means the loop did not
return within the given fuel (in particular, a loop that never returns
yields `none` at every fuel).  The top-level wrappers run the loop with
fuel `tokens.length + 1`, which is exactly enough for every terminating
execution of the Rust loop with pure inner parsers: each loop iteration
that continues strictly shrinks the remainder, so a run that would need
more fuel is a run that never returns.
-/

/-- Mirrors Rust `enum TokenParseErrorKind<T>`. -/
inductive TokenParseErrorKind (T : Type) where
  | expects (expects : String) (found : T)
  | notEnoughToken
  | context (label : String)
deriving Repr, DecidableEq

/-- Mirrors Rust `struct TokenParseError<T>`. -/
structure TokenParseError (T : Type) where
  errors : List (TokenParseErrorKind T)
  tokens_consumed : Nat
deriving Repr, DecidableEq

/-- Mirrors `TokenParseError::with_tokens_consumed`. -/
def TokenParseError.with_tokens_consumed (self : TokenParseError T)
    (tokens_consumed : Nat) : TokenParseError T :=
  { errors := self.errors, tokens_consumed := tokens_consumed }

/-- Mirrors the Rust alias `TokenParseResult`, a `Result` of (remaining slice, output) or `TokenParseError`. -/
def TokenParseResult (T O W : Type) := Except (TokenParseError T) (List W × O)

/-- A parser in the sense of the `TokenParser` trait: a function from the
remaining input slice to a result. -/
def Parser (T O W : Type) := List W → TokenParseResult T O W

/-- Loop body of `many1` (lines 59-81 of lib.rs): state is the current
remainder `rest`, the accumulator `vec` and the `succeeded_at_least_once`
flag; fuel bounds the number of iterations. -/
def many1Loop (p : Parser T O W) :
    Nat → List W → List O → Bool → Option (TokenParseResult T (List O) W)
  | 0, _, _, _ => none
  | fuel + 1, rest, vec, succeeded =>
    if rest.length > 0 then
      match p rest with
      | .ok (restTokens, item) => many1Loop p fuel restTokens (vec ++ [item]) true
      | .error err =>
        if succeeded then some (.ok (rest, vec)) else some (.error err)
    else
      some (.ok (rest, vec))

/-- Mirrors `many1`: run the loop from the initial state with enough fuel
for any terminating execution. -/
def many1 (p : Parser T O W) (tokens : List W) :
    Option (TokenParseResult T (List O) W) :=
  many1Loop p (tokens.length + 1) tokens [] false

/-- Loop body of `many0` (lines 91-105 of lib.rs). -/
def many0Loop (p : Parser T O W) :
    Nat → List W → List O → Option (TokenParseResult T (List O) W)
  | 0, _, _ => none
  | fuel + 1, rest, vec =>
    if rest.length > 0 then
      match p rest with
      | .ok (restTokens, item) => many0Loop p fuel restTokens (vec ++ [item])
      | .error _ => some (.ok (rest, vec))
    else
      some (.ok (rest, vec))

/-- Mirrors `many0`. -/
def many0 (p : Parser T O W) (tokens : List W) :
    Option (TokenParseResult T (List O) W) :=
  many0Loop p (tokens.length + 1) tokens []

/-- Mirrors `opt` (lines 108-121 of lib.rs). -/
def opt (p : Parser T O W) : Parser T (Option O) W := fun tokens =>
  match p tokens with
  | .ok (rest, output) => .ok (rest, some output)
  | .error _ => .ok (tokens, none)

/-- Mirrors `delimited` (lines 123-135 of lib.rs); the `?` operator becomes
explicit matching on the error case. -/
def delimited (l : Parser T O1 W) (main : Parser T O2 W) (r : Parser T O3 W) :
    Parser T O2 W := fun tokens =>
  match l tokens with
  | .error e => .error e
  | .ok (rest, _) =>
    match main rest with
    | .error e => .error e
    | .ok (rest, result) =>
      match r rest with
      | .error e => .error e
      | .ok (rest, _) => .ok (rest, result)

/-- Loop body of `separated_list0` (lines 144-161 of lib.rs).  The Rust
loop condition `!tokens.is_empty()` tests the original input, which never
changes, so inside the loop every exit is an explicit `return`; the
wrapper below handles the initially-empty case. -/
def separatedList0Loop (sepP : Parser T OSep W) (itemP : Parser T O W) :
    Nat → List W → List O → Option (TokenParseResult T (List O) W)
  | 0, _, _ => none
  | fuel + 1, rest, items =>
    match itemP rest with
    | .error _ => some (.ok (rest, items))
    | .ok (restTokens, item) =>
      let items := items ++ [item]
      if restTokens.isEmpty then some (.ok (restTokens, items))
      else
        match sepP restTokens with
        | .error _ => some (.ok (restTokens, items))
        | .ok (restTokens2, _) => separatedList0Loop sepP itemP fuel restTokens2 items

/-- Mirrors `separated_list0`: on empty input the loop is skipped and
`Ok((&[], Vec::new()))` is returned. -/
def separated_list0 (sepP : Parser T OSep W) (itemP : Parser T O W)
    (tokens : List W) : Option (TokenParseResult T (List O) W) :=
  if tokens.isEmpty then some (.ok ([], []))
  else separatedList0Loop sepP itemP (tokens.length + 1) tokens []

/-- Loop body of `separated_list1` (lines 174-197 of lib.rs); `numTokens`
is the length of the original input, used by `with_tokens_consumed`. -/
def separatedList1Loop (sepP : Parser T OSep W) (itemP : Parser T O W)
    (numTokens : Nat) :
    Nat → List W → List O → Option (TokenParseResult T (List O) W)
  | 0, _, _ => none
  | fuel + 1, rest, items =>
    match itemP rest with
    | .error err =>
      if items.length > 0 then some (.ok (rest, items))
      else some (.error (err.with_tokens_consumed (numTokens - rest.length)))
    | .ok (restTokens, item) =>
      let items := items ++ [item]
      if restTokens.isEmpty then some (.ok (restTokens, items))
      else
        match sepP restTokens with
        | .error _ => some (.ok (restTokens, items))
        | .ok (restTokens2, _) =>
          separatedList1Loop sepP itemP numTokens fuel restTokens2 items

/-- Mirrors `separated_list1`: on empty input the loop is skipped and
`Err(NotEnoughToken, tokens_consumed: 0)` is returned. -/
def separated_list1 (sepP : Parser T OSep W) (itemP : Parser T O W)
    (tokens : List W) : Option (TokenParseResult T (List O) W) :=
  if tokens.isEmpty then
    some (.error { errors := [TokenParseErrorKind.notEnoughToken], tokens_consumed := 0 })
  else separatedList1Loop sepP itemP tokens.length (tokens.length + 1) tokens []

/-- Mirrors `map` (lines 203-211 of lib.rs). -/
def map (p : Parser T OParser W) (mapper : OParser → O) : Parser T O W :=
  fun tokens =>
    match p tokens with
    | .error e => .error e
    | .ok (rest, result) => .ok (rest, mapper result)

/-- A parser is suffix-preserving when the remainder of each of its successes
is a suffix of the slice it was given (the library invariant satisfied by
all generated leaf parsers, which return `rest` after one token). -/
def SuffixPreserving (p : Parser T O W) : Prop :=
  ∀ ts rest o, p ts = .ok (rest, o) → List.IsSuffix rest ts

/-- A parser makes progress when every success consumes at least one token. -/
def Progressive (p : Parser T O W) : Prop :=
  ∀ ts rest o, p ts = .ok (rest, o) → rest.length < ts.length

/-- Concrete leaf parser for tests: matches the token `0` ("digit"),
consuming one token, and fails otherwise. -/
def digitP : Parser Nat Nat Nat := fun ts =>
  match ts with
  | [] => .error { errors := [TokenParseErrorKind.notEnoughToken], tokens_consumed := 0 }
  | t :: rest =>
    if t = 0 then .ok (rest, t)
    else .error { errors := [TokenParseErrorKind.expects "digit" t], tokens_consumed := 0 }

/-- Concrete leaf parser for tests: matches the token `1` ("comma"). -/
def commaP : Parser Nat Nat Nat := fun ts =>
  match ts with
  | [] => .error { errors := [TokenParseErrorKind.notEnoughToken], tokens_consumed := 0 }
  | t :: rest =>
    if t = 1 then .ok (rest, t)
    else .error { errors := [TokenParseErrorKind.expects "comma" t], tokens_consumed := 0 }

/-- Concrete parser that always fails, carrying a nonzero `tokens_consumed`. -/
def failP : Parser Nat Nat Nat := fun _ =>
  .error { errors := [TokenParseErrorKind.notEnoughToken], tokens_consumed := 5 }

/-- Concrete parser that always succeeds without consuming anything. -/
def epsP : Parser Nat Unit Nat := fun ts => .ok (ts, ())

/-- Concrete parser that consumes exactly one token and returns it. -/
def oneP : Parser Nat Nat Nat := fun ts =>
  match ts with
  | [] => .error { errors := [TokenParseErrorKind.notEnoughToken], tokens_consumed := 0 }
  | t :: rest => .ok (rest, t)

/-! Helper lemmas about the loop bodies. -/

/-- Once `succeeded_at_least_once` is set, the `many1` loop can no longer
return an error (its `Err` arm breaks instead of returning). -/
theorem many1Loop_true_no_error (p : Parser T O W) :
    ∀ fuel rest vec e, many1Loop p fuel rest vec true ≠ some (.error e) := by
  intro fuel
  induction fuel with
  | zero => intro rest vec e h; simp [many1Loop] at h
  | succ n ih =>
    intro rest vec e h
    rw [many1Loop] at h
    split at h
    · split at h
      · exact ih _ _ _ h
      · simp at h
    · simp at h

/-- The output of a successful `many1` loop extends the accumulator, so its
length is at least that of the accumulator. -/
theorem many1Loop_length_mono (p : Parser T O W) :
    ∀ fuel rest vec b r out, many1Loop p fuel rest vec b = some (.ok (r, out)) →
      vec.length ≤ out.length := by
  intro fuel
  induction fuel with
  | zero => intro rest vec b r out h; simp [many1Loop] at h
  | succ n ih =>
    intro rest vec b r out h
    rw [many1Loop] at h
    split at h
    · split at h
      · rename_i restTokens item heq
        have := ih _ _ _ _ _ h
        simp only [List.length_append, List.length_cons, List.length_nil] at this
        omega
      · split at h
        · simp only [Option.some.injEq] at h
          obtain ⟨h1, h2⟩ := Prod.mk.injEq .. ▸ Except.ok.inj h
          simp [← h2]
        · simp at h
    · simp only [Option.some.injEq] at h
      obtain ⟨h1, h2⟩ := Prod.mk.injEq .. ▸ Except.ok.inj h
      simp [← h2]

/-- The `many0` loop never returns an error (its `Err` arm breaks). -/
theorem many0Loop_no_error (p : Parser T O W) :
    ∀ fuel rest vec e, many0Loop p fuel rest vec ≠ some (.error e) := by
  intro fuel
  induction fuel with
  | zero => intro rest vec e h; simp [many0Loop] at h
  | succ n ih =>
    intro rest vec e h
    rw [many0Loop] at h
    split at h
    · split at h
      · exact ih _ _ _ h
      · simp at h
    · simp at h

/-- The `separated_list0` loop never returns an error (all its `Err` arms
return the collected items). -/
theorem separatedList0Loop_no_error (sepP : Parser T OSep W) (itemP : Parser T O W) :
    ∀ fuel rest items e, separatedList0Loop sepP itemP fuel rest items ≠ some (.error e) := by
  intro fuel
  induction fuel with
  | zero => intro rest items e h; simp [separatedList0Loop] at h
  | succ n ih =>
    intro rest items e h
    rw [separatedList0Loop] at h
    split at h
    · simp at h
    · split at h
      · simp at h
      · split at h
        · simp at h
        · exact ih _ _ _ h

/-- If the inner parser is suffix-preserving, the remainder returned by a
successful `many0` loop is a suffix of the remainder the loop started from. -/
theorem many0Loop_suffix (p : Parser T O W) (hp : SuffixPreserving p) :
    ∀ fuel rest vec r out, many0Loop p fuel rest vec = some (.ok (r, out)) →
      List.IsSuffix r rest := by
  intro fuel
  induction fuel with
  | zero => intro rest vec r out h; simp [many0Loop] at h
  | succ n ih =>
    intro rest vec r out h
    rw [many0Loop] at h
    split at h
    · split at h
      · rename_i restTokens item heq
        exact (ih _ _ _ _ h).trans (hp rest restTokens item heq)
      · simp only [Option.some.injEq] at h
        obtain ⟨h1, _⟩ := Prod.mk.injEq .. ▸ Except.ok.inj h
        exact h1 ▸ List.suffix_refl rest
    · simp only [Option.some.injEq] at h
      obtain ⟨h1, _⟩ := Prod.mk.injEq .. ▸ Except.ok.inj h
      exact h1 ▸ List.suffix_refl rest

/-- If the inner parser is suffix-preserving, the remainder returned by a
successful `many1` loop is a suffix of the remainder the loop started from. -/
theorem many1Loop_suffix (p : Parser T O W) (hp : SuffixPreserving p) :
    ∀ fuel rest vec b r out, many1Loop p fuel rest vec b = some (.ok (r, out)) →
      List.IsSuffix r rest := by
  intro fuel
  induction fuel with
  | zero => intro rest vec b r out h; simp [many1Loop] at h
  | succ n ih =>
    intro rest vec b r out h
    rw [many1Loop] at h
    split at h
    · split at h
      · rename_i restTokens item heq
        exact (ih _ _ _ _ _ h).trans (hp rest restTokens item heq)
      · split at h
        · simp only [Option.some.injEq] at h
          obtain ⟨h1, _⟩ := Prod.mk.injEq .. ▸ Except.ok.inj h
          exact h1 ▸ List.suffix_refl rest
        · simp at h
    · simp only [Option.some.injEq] at h
      obtain ⟨h1, _⟩ := Prod.mk.injEq .. ▸ Except.ok.inj h
      exact h1 ▸ List.suffix_refl rest

/-- If both parsers are suffix-preserving, the remainder returned by a
successful `separated_list0` loop is a suffix of the starting remainder. -/
theorem separatedList0Loop_suffix (sepP : Parser T OSep W) (itemP : Parser T O W)
    (hsep : SuffixPreserving sepP) (hitem : SuffixPreserving itemP) :
    ∀ fuel rest items r out,
      separatedList0Loop sepP itemP fuel rest items = some (.ok (r, out)) →
      List.IsSuffix r rest := by
  intro fuel
  induction fuel with
  | zero => intro rest items r out h; simp [separatedList0Loop] at h
  | succ n ih =>
    intro rest items r out h
    rw [separatedList0Loop] at h
    split at h
    · simp only [Option.some.injEq] at h
      obtain ⟨h1, _⟩ := Prod.mk.injEq .. ▸ Except.ok.inj h
      exact h1 ▸ List.suffix_refl rest
    · rename_i restTokens item heqItem
      split at h
      · simp only [Option.some.injEq] at h
        obtain ⟨h1, _⟩ := Prod.mk.injEq .. ▸ Except.ok.inj h
        exact h1 ▸ hitem rest restTokens item heqItem
      · split at h
        · simp only [Option.some.injEq] at h
          obtain ⟨h1, _⟩ := Prod.mk.injEq .. ▸ Except.ok.inj h
          exact h1 ▸ hitem rest restTokens item heqItem
        · rename_i restTokens2 osep heqSep
          exact ((ih _ _ _ _ h).trans (hsep restTokens restTokens2 osep heqSep)).trans
            (hitem rest restTokens item heqItem)

/-- If both parsers are suffix-preserving, the remainder returned by a
successful `separated_list1` loop is a suffix of the starting remainder. -/
theorem separatedList1Loop_suffix (sepP : Parser T OSep W) (itemP : Parser T O W)
    (numTokens : Nat) (hsep : SuffixPreserving sepP) (hitem : SuffixPreserving itemP) :
    ∀ fuel rest items r out,
      separatedList1Loop sepP itemP numTokens fuel rest items = some (.ok (r, out)) →
      List.IsSuffix r rest := by
  intro fuel
  induction fuel with
  | zero => intro rest items r out h; simp [separatedList1Loop] at h
  | succ n ih =>
    intro rest items r out h
    rw [separatedList1Loop] at h
    split at h
    · split at h
      · simp only [Option.some.injEq] at h
        obtain ⟨h1, _⟩ := Prod.mk.injEq .. ▸ Except.ok.inj h
        exact h1 ▸ List.suffix_refl rest
      · simp at h
    · rename_i restTokens item heqItem
      split at h
      · simp only [Option.some.injEq] at h
        obtain ⟨h1, _⟩ := Prod.mk.injEq .. ▸ Except.ok.inj h
        exact h1 ▸ hitem rest restTokens item heqItem
      · split at h
        · simp only [Option.some.injEq] at h
          obtain ⟨h1, _⟩ := Prod.mk.injEq .. ▸ Except.ok.inj h
          exact h1 ▸ hitem rest restTokens item heqItem
        · rename_i restTokens2 osep heqSep
          exact ((ih _ _ _ _ h).trans (hsep restTokens restTokens2 osep heqSep)).trans
            (hitem rest restTokens item heqItem)

/-- With a progressive inner parser, the `many0` loop returns within fuel
exceeding the length of the remainder. -/
theorem many0Loop_isSome (p : Parser T O W) (hp : Progressive p) :
    ∀ fuel rest vec, rest.length < fuel → (many0Loop p fuel rest vec).isSome := by
  intro fuel
  induction fuel with
  | zero => intro rest vec h; omega
  | succ n ih =>
    intro rest vec h
    rw [many0Loop]
    split
    · split
      · rename_i restTokens item heq
        exact ih restTokens _ (by have := hp rest restTokens item heq; omega)
      · simp
    · simp

/-- With a progressive inner parser, the `many1` loop returns within fuel
exceeding the length of the remainder. -/
theorem many1Loop_isSome (p : Parser T O W) (hp : Progressive p) :
    ∀ fuel rest vec b, rest.length < fuel → (many1Loop p fuel rest vec b).isSome := by
  intro fuel
  induction fuel with
  | zero => intro rest vec b h; omega
  | succ n ih =>
    intro rest vec b h
    rw [many1Loop]
    split
    · split
      · rename_i restTokens item heq
        exact ih restTokens _ _ (by have := hp rest restTokens item heq; omega)
      · split <;> simp
    · simp

/-- With progressive parsers, the `separated_list0` loop returns within
fuel exceeding the length of the remainder. -/
theorem separatedList0Loop_isSome (sepP : Parser T OSep W) (itemP : Parser T O W)
    (hsep : Progressive sepP) (hitem : Progressive itemP) :
    ∀ fuel rest items, rest.length < fuel →
      (separatedList0Loop sepP itemP fuel rest items).isSome := by
  intro fuel
  induction fuel with
  | zero => intro rest items h; omega
  | succ n ih =>
    intro rest items h
    rw [separatedList0Loop]
    split
    · simp
    · rename_i restTokens item heqItem
      split
      · simp
      · split
        · simp
        · rename_i restTokens2 osep heqSep
          refine ih restTokens2 _ ?_
          have h1 := hitem rest restTokens item heqItem
          have h2 := hsep restTokens restTokens2 osep heqSep
          omega

/-- With progressive parsers, the `separated_list1` loop returns within
fuel exceeding the length of the remainder. -/
theorem separatedList1Loop_isSome (sepP : Parser T OSep W) (itemP : Parser T O W)
    (numTokens : Nat) (hsep : Progressive sepP) (hitem : Progressive itemP) :
    ∀ fuel rest items, rest.length < fuel →
      (separatedList1Loop sepP itemP numTokens fuel rest items).isSome := by
  intro fuel
  induction fuel with
  | zero => intro rest items h; omega
  | succ n ih =>
    intro rest items h
    rw [separatedList1Loop]
    split
    · split <;> simp
    · rename_i restTokens item heqItem
      split
      · simp
      · split
        · simp
        · rename_i restTokens2 osep heqSep
          refine ih restTokens2 _ ?_
          have h1 := hitem rest restTokens item heqItem
          have h2 := hsep restTokens restTokens2 osep heqSep
          omega

/-- `digitP` returns the tail of its input on success. -/
theorem digitP_suffixPreserving : SuffixPreserving digitP := by
  intro ts rest o h
  cases ts with
  | nil => simp [digitP] at h
  | cons t ts2 =>
    simp only [digitP] at h
    split at h
    · obtain ⟨h1, _⟩ := Prod.mk.injEq .. ▸ Except.ok.inj h
      exact h1 ▸ List.suffix_cons t ts2
    · simp at h

/-- `commaP` returns the tail of its input on success. -/
theorem commaP_suffixPreserving : SuffixPreserving commaP := by
  intro ts rest o h
  cases ts with
  | nil => simp [commaP] at h
  | cons t ts2 =>
    simp only [commaP] at h
    split at h
    · obtain ⟨h1, _⟩ := Prod.mk.injEq .. ▸ Except.ok.inj h
      exact h1 ▸ List.suffix_cons t ts2
    · simp at h

/-- `oneP` consumes exactly one token on success. -/
theorem oneP_progressive : Progressive oneP := by
  intro ts rest o h
  cases ts with
  | nil => simp [oneP] at h
  | cons t ts2 =>
    simp only [oneP] at h
    obtain ⟨h1, _⟩ := Prod.mk.injEq .. ▸ Except.ok.inj h
    simp [← h1]

/-- Claim C10: `many1` applied to the empty input slice succeeds with an
empty output vector and the empty slice as remainder; the result is the
same for every inner parser `p`, which witnesses that `p` is never invoked
on that call (the loop guard `rest.len() > 0` skips the body). -/
theorem many1_empty_input (p : Parser T O W) :
    many1 p [] = some (.ok ([], [])) := rfl

/-- Claim C6: `separated_list1` applied to the empty input slice fails with
the single error kind `NotEnoughToken` and `tokens_consumed = 0`, for every
separator and item parser. -/
theorem separated_list1_empty_input (sepP : Parser T OSep W) (itemP : Parser T O W) :
    separated_list1 sepP itemP [] =
      some (.error { errors := [TokenParseErrorKind.notEnoughToken],
                     tokens_consumed := 0 }) := rfl

/-- Claim C9: `map p id` returns exactly the result of `p` on every input: the
same remainder and output on success, the same error unchanged on failure. -/
theorem map_identity (p : Parser T O W) (input : List W) :
    map p id input = p input := by
  cases h : p input with
  | ok v =>
    obtain ⟨rest, result⟩ := v
    simp [map, h]
  | error e => simp [map, h]

/-- Claim C7: `opt(p)` never fails; on inner success `(rest, o)` it returns
`(rest, Some o)`, and on inner failure it returns the original input with
`None`, discarding the inner error. -/
theorem opt_contract (p : Parser T O W) (input rest : List W) (o : O)
    (e : TokenParseError T) :
    (p input = .ok (rest, o) → opt p input = .ok (rest, some o)) ∧
    (p input = .error e → opt p input = .ok (input, none)) ∧
    ∃ r oo, opt p input = .ok (r, oo) := by
  refine ⟨fun h => by simp [opt, h], fun h => by simp [opt, h], ?_⟩
  cases h : p input with
  | ok v =>
    obtain ⟨r, oo⟩ := v
    exact ⟨r, some oo, by simp [opt, h]⟩
  | error e2 => exact ⟨input, none, by simp [opt, h]⟩

/-- Witness for C7 at concrete inputs: `digitP` succeeds on `[0, 7]` and
fails on `[7]`; `opt digitP` wraps the success and swallows the failure. -/
theorem opt_contract_witness :
    opt digitP [0, 7] = .ok ([7], some 0) ∧ opt digitP [7] = .ok ([7], none) :=
  ⟨(opt_contract digitP [0, 7] [7] 0
      { errors := [], tokens_consumed := 0 }).1 rfl,
   (opt_contract digitP [7] [] 0
      { errors := [TokenParseErrorKind.expects "digit" 7], tokens_consumed := 0 }).2.1 rfl⟩

/-- Claim C8: when the very first item attempt of `separated_list1` fails
with error `e` on a nonempty input, `separated_list1` fails with the
errors sequence and `tokens_consumed` reset to 0 (the tokens consumed
before that attempt), regardless of the value `e` carried. -/
theorem separated_list1_first_item_failure (sepP : Parser T OSep W)
    (itemP : Parser T O W) (input : List W) (e : TokenParseError T)
    (h : input ≠ []) (hfail : itemP input = .error e) :
    separated_list1 sepP itemP input =
      some (.error { errors := e.errors, tokens_consumed := 0 }) := by
  have hne : input.isEmpty = false := by
    cases input with
    | nil => exact absurd rfl h
    | cons a l => rfl
  unfold separated_list1
  rw [hne]
  rw [separatedList1Loop]
  simp [hfail, TokenParseError.with_tokens_consumed]

/-- Witness for C8: `failP` fails carrying `tokens_consumed = 5`, yet
`separated_list1` reports the failure with `tokens_consumed = 0`. -/
theorem separated_list1_first_item_failure_witness :
    separated_list1 commaP failP [9] =
      some (.error { errors := [TokenParseErrorKind.notEnoughToken],
                     tokens_consumed := 0 }) :=
  separated_list1_first_item_failure commaP failP [9]
    { errors := [TokenParseErrorKind.notEnoughToken], tokens_consumed := 5 }
    (by decide) rfl

/-- Counterexample to C1 as stated: on the EMPTY input, the always-failing
parser `failP` fails on any attempt, yet `many1 failP` succeeds -- and its
output vector is empty, so the claimed "length at least 1 on success" also
fails.  (The loop guard `rest.len() > 0` skips the body entirely.) -/
theorem many1_claim_counterexample :
    many1 failP [] = some (.ok ([], [])) ∧
    failP [] = .error { errors := [TokenParseErrorKind.notEnoughToken],
                        tokens_consumed := 5 } ∧
    ¬ 1 ≤ ([] : List Nat).length :=
  ⟨rfl, rfl, by decide⟩

/-- Claim C1 (amended): for every NONEMPTY input slice, `many1 p` fails if
and only if `p` fails on the very first attempt, and then returns exactly
the exact error of `p`; whenever `many1 p` succeeds on a nonempty input, the output
sequence has length at least 1.  (On the empty input `many1` succeeds with
an empty output without consulting `p`.) -/
theorem many1_first_failure (p : Parser T O W) (input : List W) (h : input ≠ []) :
    (∀ e, many1 p input = some (.error e) ↔ p input = .error e) ∧
    (∀ rest out, many1 p input = some (.ok (rest, out)) → 1 ≤ out.length) := by
  have hlen : input.length > 0 := List.length_pos.mpr h
  unfold many1
  rw [many1Loop, if_pos hlen]
  cases hp : p input with
  | ok v =>
    obtain ⟨restTokens, item⟩ := v
    constructor
    · intro e
      constructor
      · intro hcontra
        exact absurd hcontra (many1Loop_true_no_error p _ _ _ e)
      · intro hcontra
        exact Except.noConfusion hcontra
    · intro rest out hok
      have := many1Loop_length_mono p _ _ _ _ _ _ hok
      simpa using this
  | error e0 =>
    constructor
    · intro e
      simp only [Bool.false_eq_true, if_false, Option.some.injEq]
      constructor
      · intro he
        rw [Except.error.inj he]
      · intro he
        rw [Except.error.inj he]
    · intro rest out hok
      simp at hok

/-- Witness for C1 (amended) on the nonempty input `[2]`, where `digitP`
fails on the first attempt: `many1` propagates that exact error. -/
theorem many1_first_failure_witness :
    many1 digitP [2] =
      some (.error { errors := [TokenParseErrorKind.expects "digit" 2],
                     tokens_consumed := 0 }) :=
  ((many1_first_failure digitP [2] (by decide)).1
    { errors := [TokenParseErrorKind.expects "digit" 2], tokens_consumed := 0 }).mpr rfl

/-- Claim C5: `many0` and `separated_list0` never return an error, for any
inner parsers; with suffix-preserving inner parsers every returned
remainder is a suffix of the input; and on the empty input both return an
empty collected sequence with the empty (unchanged) remainder. -/
theorem many0_separated_list0_never_fail (p : Parser T O W)
    (sepP : Parser T OSep W) (itemP : Parser T O2 W) (input : List W)
    (hp : SuffixPreserving p) (hsep : SuffixPreserving sepP)
    (hitem : SuffixPreserving itemP) :
    (∀ e, many0 p input ≠ some (.error e)) ∧
    (∀ e, separated_list0 sepP itemP input ≠ some (.error e)) ∧
    (∀ rest out, many0 p input = some (.ok (rest, out)) → List.IsSuffix rest input) ∧
    (∀ rest out, separated_list0 sepP itemP input = some (.ok (rest, out)) →
      List.IsSuffix rest input) ∧
    many0 p [] = some (.ok ([], [])) ∧
    separated_list0 sepP itemP [] = some (.ok ([], [])) := by
  refine ⟨?_, ?_, ?_, ?_, rfl, rfl⟩
  · intro e
    exact many0Loop_no_error p _ _ _ e
  · intro e h
    unfold separated_list0 at h
    split at h
    · simp at h
    · exact separatedList0Loop_no_error sepP itemP _ _ _ _ h
  · intro rest out h
    exact many0Loop_suffix p hp _ _ _ _ _ h
  · intro rest out h
    unfold separated_list0 at h
    split at h
    · simp only [Option.some.injEq] at h
      obtain ⟨h1, _⟩ := Prod.mk.injEq .. ▸ Except.ok.inj h
      exact h1 ▸ List.nil_suffix
    · exact separatedList0Loop_suffix sepP itemP hsep hitem _ _ _ _ _ h

/-- Witness for C5 with the concrete suffix-preserving parsers `digitP` and
`commaP`, at the empty input. -/
theorem many0_separated_list0_never_fail_witness :
    many0 digitP ([] : List Nat) = some (.ok ([], [])) ∧
    separated_list0 commaP digitP ([] : List Nat) = some (.ok ([], [])) :=
  ⟨(many0_separated_list0_never_fail digitP commaP digitP []
      digitP_suffixPreserving commaP_suffixPreserving digitP_suffixPreserving).2.2.2.2.1,
   (many0_separated_list0_never_fail digitP commaP digitP []
      digitP_suffixPreserving commaP_suffixPreserving digitP_suffixPreserving).2.2.2.2.2⟩

/-- A suffix together with the length inequality it implies. -/
theorem suffix_with_le {a b : List W} (hs : List.IsSuffix a b) :
    List.IsSuffix a b ∧ a.length ≤ b.length :=
  ⟨hs, hs.length_le⟩

/-- Claim C4: under the hypothesis that every successful result of each
inner parser is a suffix of the slice it was given, every combinator of
the library (opt, map, delimited, many0, many1, separated_list0,
separated_list1) returns, on success, a remainder that is a suffix of its
input, so `consumed = len input - len remaining ≥ 0`. -/
theorem combinators_suffix_invariant
    (p : Parser T O W) (f : O → O2) (l : Parser T O1 W) (m : Parser T O2 W)
    (r : Parser T O3 W) (sepP : Parser T OSep W) (itemP : Parser T O4 W)
    (input : List W)
    (hpS : SuffixPreserving p) (hlS : SuffixPreserving l)
    (hmS : SuffixPreserving m) (hrS : SuffixPreserving r)
    (hsepS : SuffixPreserving sepP) (hitemS : SuffixPreserving itemP) :
    (∀ rest out, opt p input = .ok (rest, out) →
      List.IsSuffix rest input ∧ rest.length ≤ input.length) ∧
    (∀ rest out, map p f input = .ok (rest, out) →
      List.IsSuffix rest input ∧ rest.length ≤ input.length) ∧
    (∀ rest out, delimited l m r input = .ok (rest, out) →
      List.IsSuffix rest input ∧ rest.length ≤ input.length) ∧
    (∀ rest out, many0 p input = some (.ok (rest, out)) →
      List.IsSuffix rest input ∧ rest.length ≤ input.length) ∧
    (∀ rest out, many1 p input = some (.ok (rest, out)) →
      List.IsSuffix rest input ∧ rest.length ≤ input.length) ∧
    (∀ rest out, separated_list0 sepP itemP input = some (.ok (rest, out)) →
      List.IsSuffix rest input ∧ rest.length ≤ input.length) ∧
    (∀ rest out, separated_list1 sepP itemP input = some (.ok (rest, out)) →
      List.IsSuffix rest input ∧ rest.length ≤ input.length) := by
  refine ⟨?_, ?_, ?_, ?_, ?_, ?_, ?_⟩
  · intro rest out h
    unfold opt at h
    cases heq : p input with
    | ok v =>
      obtain ⟨r0, o0⟩ := v
      rw [heq] at h
      simp only [Option.some.injEq] at h
      obtain ⟨h1, _⟩ := Prod.mk.injEq .. ▸ Except.ok.inj h
      exact suffix_with_le (h1 ▸ hpS input r0 o0 heq)
    | error e =>
      rw [heq] at h
      simp only [Option.some.injEq] at h
      obtain ⟨h1, _⟩ := Prod.mk.injEq .. ▸ Except.ok.inj h
      exact suffix_with_le (h1 ▸ List.suffix_refl input)
  · intro rest out h
    unfold map at h
    cases heq : p input with
    | ok v =>
      obtain ⟨r0, o0⟩ := v
      rw [heq] at h
      simp only [Option.some.injEq] at h
      obtain ⟨h1, _⟩ := Prod.mk.injEq .. ▸ Except.ok.inj h
      exact suffix_with_le (h1 ▸ hpS input r0 o0 heq)
    | error e =>
      rw [heq] at h
      simp at h
  · intro rest out h
    unfold delimited at h
    cases heq1 : l input with
    | error e => simp [heq1] at h
    | ok v1 =>
      obtain ⟨r1, o1⟩ := v1
      simp only [heq1] at h
      cases heq2 : m r1 with
      | error e => simp [heq2] at h
      | ok v2 =>
        obtain ⟨r2, o2⟩ := v2
        simp only [heq2] at h
        cases heq3 : r r2 with
        | error e => simp [heq3] at h
        | ok v3 =>
          obtain ⟨r3, o3⟩ := v3
          simp only [heq3] at h
          obtain ⟨h1, _⟩ := Prod.mk.injEq .. ▸ Except.ok.inj h
          exact suffix_with_le (h1 ▸ ((hrS r2 r3 o3 heq3).trans
            (hmS r1 r2 o2 heq2)).trans (hlS input r1 o1 heq1))
  · intro rest out h
    exact suffix_with_le (many0Loop_suffix p hpS _ _ _ _ _ h)
  · intro rest out h
    exact suffix_with_le (many1Loop_suffix p hpS _ _ _ _ _ _ h)
  · intro rest out h
    unfold separated_list0 at h
    split at h
    · simp only [Option.some.injEq] at h
      obtain ⟨h1, _⟩ := Prod.mk.injEq .. ▸ Except.ok.inj h
      exact suffix_with_le (h1 ▸ List.nil_suffix)
    · exact suffix_with_le (separatedList0Loop_suffix sepP itemP hsepS hitemS _ _ _ _ _ h)
  · intro rest out h
    unfold separated_list1 at h
    split at h
    · simp at h
    · exact suffix_with_le (separatedList1Loop_suffix sepP itemP _ hsepS hitemS _ _ _ _ _ h)

/-- Witness for C4: `opt digitP` on `[0, 7]` returns remainder `[7]`,
a suffix of the input of smaller length. -/
theorem combinators_suffix_invariant_witness :
    List.IsSuffix ([7] : List Nat) [0, 7] ∧
    ([7] : List Nat).length ≤ ([0, 7] : List Nat).length :=
  (combinators_suffix_invariant digitP id digitP digitP digitP commaP digitP [0, 7]
    digitP_suffixPreserving digitP_suffixPreserving digitP_suffixPreserving
    digitP_suffixPreserving commaP_suffixPreserving digitP_suffixPreserving).1
    [7] (some 0) rfl

/-- With the non-consuming always-succeeding parser `epsP`, the `many0`
loop never returns on the input `[5]`, whatever the fuel. -/
theorem many0Loop_epsP_none : ∀ fuel vec, many0Loop epsP fuel [5] vec = none := by
  intro fuel
  induction fuel with
  | zero => intro vec; rfl
  | succ n ih =>
    intro vec
    rw [many0Loop]
    simp only [epsP]
    rw [if_pos (by decide)]
    exact ih (vec ++ [()])

/-- Counterexample to C3 as stated: for the inner parser `epsP`, which
succeeds without consuming input, `many0` on the one-token input `[5]`
never returns -- at no fuel does the loop produce a result, and the
canonical-fuel wrapper reports divergence.  Repetition combinators do NOT
terminate for every inner parser. -/
theorem many0_nontermination_counterexample :
    many0 epsP [5] = none ∧
    ¬ ∃ fuel res, many0Loop epsP fuel [5] [] = some res := by
  constructor
  · exact many0Loop_epsP_none _ _
  · rintro ⟨fuel, res, h⟩
    rw [many0Loop_epsP_none] at h
    cases h

/-- Claim C3 (amended): under the hypothesis that every successful step of
each inner parser consumes at least one token, every invocation of a
repetition or list combinator terminates: the loop returns a result within
the fuel of the wrapper (bounded by the input length). -/
theorem repetition_termination (p : Parser T O W) (sepP : Parser T OSep W)
    (itemP : Parser T O2 W) (input : List W)
    (hp : Progressive p) (hsep : Progressive sepP) (hitem : Progressive itemP) :
    (many0 p input).isSome ∧ (many1 p input).isSome ∧
    (separated_list0 sepP itemP input).isSome ∧
    (separated_list1 sepP itemP input).isSome := by
  refine ⟨many0Loop_isSome p hp _ _ _ (by omega),
          many1Loop_isSome p hp _ _ _ _ (by omega), ?_, ?_⟩
  · unfold separated_list0
    split
    · simp
    · exact separatedList0Loop_isSome sepP itemP hsep hitem _ _ _ (by omega)
  · unfold separated_list1
    split
    · simp
    · exact separatedList1Loop_isSome sepP itemP _ hsep hitem _ _ _ (by omega)

/-- Witness for C3 (amended) with the one-token-consuming parser `oneP`. -/
theorem repetition_termination_witness :
    (many0 oneP [1, 2]).isSome ∧ (many1 oneP [1, 2]).isSome ∧
    (separated_list0 oneP oneP [1, 2]).isSome ∧
    (separated_list1 oneP oneP [1, 2]).isSome :=
  repetition_termination oneP oneP oneP [1, 2]
    oneP_progressive oneP_progressive oneP_progressive

/-- Counterexample to C2 as stated: on the input `[0, 1, 0, 1]`
(item, separator, item, separator with `digitP` items and `commaP`
separators), both list combinators succeed with the two items, but the
returned remainder is the EMPTY slice: the trailing separator has been
consumed, not left unconsumed in the remainder (which the claim would
require to be `[1]`). -/
theorem separated_list_trailing_sep_counterexample :
    separated_list0 commaP digitP [0, 1, 0, 1] = some (.ok ([], [0, 0])) ∧
    separated_list1 commaP digitP [0, 1, 0, 1] = some (.ok ([], [0, 0])) ∧
    ([] : List Nat) ≠ [1] :=
  ⟨rfl, rfl, by decide⟩

/-- Claim C2 (amended): on an input of shape item, separator, item,
separator — each chunk consumed by its parser, the trailing separator
consuming the rest of the input, and the item parser failing on the empty
remainder — both `separated_list0` and `separated_list1` succeed with the
two collected items; the trailing separator is CONSUMED (the returned
remainder is the empty slice) and no error is reported. -/
theorem separated_list_trailing_sep (sepP : Parser T OSep W) (itemP : Parser T O W)
    (input r1 r2 r3 : List W) (o1 o2 : O) (s1 s2 : OSep) (e : TokenParseError T)
    (h1 : itemP input = .ok (r1, o1)) (h2 : sepP r1 = .ok (r2, s1))
    (h3 : itemP r2 = .ok (r3, o2)) (h4 : sepP r3 = .ok ([], s2))
    (h5 : itemP [] = .error e)
    (hc1 : r1.length < input.length) (hc2 : r2.length < r1.length)
    (hc3 : r3.length < r2.length) (hc4 : 0 < r3.length) :
    separated_list0 sepP itemP input = some (.ok ([], [o1, o2])) ∧
    separated_list1 sepP itemP input = some (.ok ([], [o1, o2])) := by
  have hr1e : r1.isEmpty = false := by
    cases r1 with
    | nil => simp at hc2
    | cons a l => rfl
  have hr3e : r3.isEmpty = false := by
    cases r3 with
    | nil => simp at hc4
    | cons a l => rfl
  have hinpe : input.isEmpty = false := by
    cases input with
    | nil => simp at hc1
    | cons a l => rfl
  have loop0 : ∀ k items, separatedList0Loop sepP itemP (k + 3) input items
      = some (.ok ([], items ++ [o1, o2])) := by
    intro k items
    show separatedList0Loop sepP itemP ((k + 2) + 1) input items = _
    rw [separatedList0Loop]
    simp only [h1, hr1e, Bool.false_eq_true, if_false, h2]
    show separatedList0Loop sepP itemP ((k + 1) + 1) r2 (items ++ [o1]) = _
    rw [separatedList0Loop]
    simp only [h3, hr3e, Bool.false_eq_true, if_false, h4]
    show separatedList0Loop sepP itemP (k + 1) [] ((items ++ [o1]) ++ [o2]) = _
    rw [separatedList0Loop]
    simp [h5, List.append_assoc]
  have loop1 : ∀ k items, separatedList1Loop sepP itemP input.length (k + 3) input items
      = some (.ok ([], items ++ [o1, o2])) := by
    intro k items
    show separatedList1Loop sepP itemP input.length ((k + 2) + 1) input items = _
    rw [separatedList1Loop]
    simp only [h1, hr1e, Bool.false_eq_true, if_false, h2]
    show separatedList1Loop sepP itemP input.length ((k + 1) + 1) r2 (items ++ [o1]) = _
    rw [separatedList1Loop]
    simp only [h3, hr3e, Bool.false_eq_true, if_false, h4]
    show separatedList1Loop sepP itemP input.length (k + 1) [] ((items ++ [o1]) ++ [o2]) = _
    rw [separatedList1Loop]
    simp [h5, List.append_assoc]
  constructor
  · unfold separated_list0
    rw [hinpe]
    simp only [Bool.false_eq_true, if_false]
    have hf : input.length + 1 = (input.length - 2) + 3 := by omega
    rw [hf]
    exact loop0 (input.length - 2) []
  · unfold separated_list1
    rw [hinpe]
    simp only [Bool.false_eq_true, if_false]
    have hf : input.length + 1 = (input.length - 2) + 3 := by omega
    rw [hf]
    exact loop1 (input.length - 2) []

/-- Witness for C2 (amended) on the concrete grammar: digits `0` separated
by commas `1`, input `[0, 1, 0, 1]`. -/
theorem separated_list_trailing_sep_witness :
    separated_list0 commaP digitP [0, 1, 0, 1] = some (.ok ([], [0, 0])) ∧
    separated_list1 commaP digitP [0, 1, 0, 1] = some (.ok ([], [0, 0])) :=
  separated_list_trailing_sep commaP digitP [0, 1, 0, 1] [1, 0, 1] [0, 1] [1]
    0 0 1 1 { errors := [TokenParseErrorKind.notEnoughToken], tokens_consumed := 0 }
    rfl rfl rfl rfl rfl (by decide) (by decide) (by decide) (by decide)
